import Mathlib

/-
Verification development for the volume-cartographer repository.

Shallow embedding conventions:
  - C++ `double` values that are provably integer-valued throughout the
    relevant computations are modelled as rationals; machine integers
    are modelled as Nat/Int with explicit `% 2^32` where C++ unsigned
    wraparound matters.
  - Fallible C++ code (exceptions such as `std::vector::at` out of range,
    or `std::exit` before the result is produced) is modelled with
    Option/Except-style result types.
  - Functions are translated from the C++ sources; where a definition is
    instead reconstructed from the specification because the corresponding
    .cpp body is not part of the source set, its doc comment starts with
    `Modelled from the spec:`.
-/

/-- A 3D point with rational coordinates, embedding `cv::Vec3f` / `cv::Vec3d`
(x, y, z components). -/
structure Pt where
  x : ℚ
  y : ℚ
  z : ℚ
deriving DecidableEq, Repr

/-- Componentwise vector addition on points (cv::Vec3f operator+). -/
def ptAdd (a b : Pt) : Pt :=
  ⟨a.x + b.x, a.y + b.y, a.z + b.z⟩

/-- Scalar multiplication on points (scalar * cv::Vec3f). -/
def ptScale (c : ℚ) (a : Pt) : Pt :=
  ⟨c * a.x, c * a.y, c * a.z⟩

/-- Embedding of `Slice::sliceCoordToVoxelCoord` (slice.cpp line 130):
`return _origin + (point.x * _xvec + point.y * _yvec);` where `point` is a
`cv::Point` with integer components. -/
def sliceCoordToVoxelCoord (origin xvec yvec : Pt) (px py : ℤ) : Pt :=
  ptAdd origin (ptAdd (ptScale (px : ℚ) xvec) (ptScale (py : ℚ) yvec))

/- ----------------------------------------------------------------
Slice::findNextPosition (slice.cpp lines 30-53).

The maxima list produced by `NormalizedIntensityMap::findNMaxima` has type
`std::vector<std::pair<uint32_t, double>>` (index into the profile row,
intensity).  Indices are modelled as Nat, intensities as rationals.
---------------------------------------------------------------- -/

/-- `2^32`, the modulus of C++ `uint32_t` arithmetic. -/
def U32MOD : ℕ := 4294967296

/-- Unsigned 32-bit subtraction `a - b` as performed by C++ when a
`uint32_t` and an `int` meet: the int is converted to `uint32_t` and the
difference wraps modulo `2^32`. -/
def u32sub (a b : ℕ) : ℕ :=
  (a % U32MOD + (U32MOD - b % U32MOD)) % U32MOD

/-- The value `int32_t(std::sqrt(double((c - x)) * (c - x)))` computed by the
comparator inside `Slice::findNextPosition` (slice.cpp lines 44-45), for a
candidate index `c` (uint32_t) and reference column `x` (non-negative int).

`c - x` is unsigned 32-bit arithmetic, so it wraps: `d = (c - x) mod 2^32`.
Both factors of `double(d) * d` convert `d` to double exactly (d < 2^53),
and `sqrt` of the correctly rounded square of a 32-bit integer is exactly
`d` again (the rounding error of the product is below half an ulp of `d`
after the square root), so the double being converted to `int32_t` is the
exact integer `d`.  When `d < 2^31` the conversion yields `d`; when
`d ≥ 2^31` the conversion is out of range for `int32_t` (undefined behavior
in C++), and we model the x86-64 `cvttsd2si` result, `INT32_MIN`. -/
def distToCenter (c x : ℕ) : ℤ :=
  let d := u32sub c x
  if d < 2147483648 then (d : ℤ) else -2147483648

/-- The strict comparator passed to `std::sort` in `Slice::findNextPosition`
(slice.cpp lines 42-47), comparing two maxima candidates by `distToCenter`
against the reference column `x = center.x`. -/
def maximaLtB (x : ℕ) (lhs rhs : ℕ × ℚ) : Bool :=
  distToCenter lhs.1 x < distToCenter rhs.1 x

/-- Insert one candidate into a list already sorted by `maximaLtB x`:
the candidate goes after every element strictly below it. -/
def insertRanked (x : ℕ) (a : ℕ × ℚ) : List (ℕ × ℚ) → List (ℕ × ℚ)
  | [] => [a]
  | b :: bs => if maximaLtB x b a then b :: insertRanked x a bs else a :: b :: bs

/-- The `std::sort(maxima.begin(), maxima.end(), comparator)` call in
`Slice::findNextPosition` (slice.cpp line 42), realised as an insertion
sort.  `std::sort` may emit any permutation that is sorted with respect to
the comparator; the theorems below only evaluate this on inputs whose
comparator keys are pairwise distinct, where the sorted order is unique,
so the choice of sorting algorithm is immaterial. -/
def rankByProximity (x : ℕ) : List (ℕ × ℚ) → List (ℕ × ℚ)
  | [] => []
  | a :: as => insertRanked x a (rankByProximity x as)

/-- `constexpr auto lookaheadDepth = 5;` (slice.cpp line 31). -/
def lookaheadDepth : ℕ := 5

/-- The fixed argument of `map.findNMaxima(4)` (slice.cpp line 35). -/
def numMaximaRequested : ℕ := 4

/-- The row of the reslice from which the 1D intensity profile is taken:
`_slice.row(center.y + lookaheadDepth)` with `center.y = _slice.rows / 2`
(slice.cpp lines 32-34). -/
def profileRowIndex (rows : ℕ) : ℕ :=
  rows / 2 + lookaheadDepth

/-- The tail of `Slice::findNextPosition` (slice.cpp lines 40-52), starting
from the maxima list returned by `findNMaxima`: sort the maxima with the
proximity comparator keyed on `center.x = cols / 2`, then take
`maxima.at(0)` and pair it with the profile row.  `maxima.at(0)` on an
empty vector raises `std::out_of_range`, modelled as `none`. -/
def findNextPositionFrom (cols rows : ℕ) (maxima : List (ℕ × ℚ)) :
    Option (ℕ × ℕ) :=
  match rankByProximity (cols / 2) maxima with
  | [] => none
  | p :: _ => some (p.1, rows / 2 + lookaheadDepth)

/-- `Slice::findNextPosition` final result (slice.cpp line 52): the chosen
slice-space point mapped through `sliceCoordToVoxelCoord`. -/
def findNextPositionVoxelFrom (origin xvec yvec : Pt) (cols rows : ℕ)
    (maxima : List (ℕ × ℚ)) : Option Pt :=
  (findNextPositionFrom cols rows maxima).map
    (fun q => sliceCoordToVoxelCoord origin xvec yvec (q.1 : ℤ) (q.2 : ℤ))

/- ----------------------------------------------------------------
OrderedPointSet (volcart::OrderedPointSet<cv::Vec3d>): a 2D grid of 3D
points with a declared column count (width); rows is the list of rows.
---------------------------------------------------------------- -/

/-- An ordered point set: declared width plus the list of rows. -/
structure OPS where
  width : ℕ
  rows : List (List Pt)
deriving DecidableEq, Repr

/-- `OrderedPointSet::height()`: number of rows. -/
def OPS.height (c : OPS) : ℕ := c.rows.length

/-- `OrderedPointSet::getRow(i)`: the i-th row, `none` when `i` is out of
range (the C++ throws `std::range_error`). -/
def OPS.getRow (c : OPS) (i : ℕ) : Option (List Pt) := c.rows[i]?

/-- `OrderedPointSet::copyRows(i, j)`: rows `[i, j)` with the same width. -/
def OPS.copyRows (c : OPS) (i j : ℕ) : OPS :=
  ⟨c.width, (c.rows.take j).drop i⟩

/-- `OrderedPointSet::append`: concatenate the rows of `b` after `a`. -/
def OPS.append (a b : OPS) : OPS :=
  ⟨a.width, a.rows ++ b.rows⟩

/-- z coordinate of `cloud.front()`, the first point of the first row
(defaulting on an empty cloud, where the C++ dereference is invalid). -/
def OPS.frontZ (c : OPS) : ℚ :=
  (((c.rows.head?.bind List.head?).getD ⟨0, 0, 0⟩)).z

/-- z coordinate of `cloud.max()`, the point with the largest z
(`std::max_element` comparing the z components). -/
def OPS.maxZval (c : OPS) : ℚ :=
  ((c.rows.flatten.map Pt.z).foldl max c.frontZ)

/- ----------------------------------------------------------------
Segment.cpp `main` (src/apps/src/Segment.cpp), from the point where the
command-line options have been parsed.  `std::exit(1)` before the
segmentation runs is modelled as an `earlyExit` outcome carrying a label
for the exit site; running the segmenter and persisting the result is
modelled as a `completed` outcome carrying the cloud passed to
`seg->setPointSet`.
---------------------------------------------------------------- -/

/-- The exit sites of Segment.cpp reached before any propagation step. -/
inductive ExitKind where
  | exclusiveOptions
  | missingOption
  | startNotBeforeEnd
  | rowOutOfRange
  | chainWidthMismatch
deriving DecidableEq, Repr

/-- Outcome of a Segment.cpp run: an early `std::exit`, or a completed run
whose final cloud was persisted with `seg->setPointSet`. -/
inductive SegmentOutcome where
  | earlyExit (k : ExitKind)
  | completed (persisted : OPS)
deriving DecidableEq, Repr

/-- Segment.cpp lines 191-195: a start index of -1 defaults to the highest
z index found in the cloud, `floor(masterCloud.max()[2])`. -/
def resolveStart (cloud : OPS) (startArg : ℤ) : ℤ :=
  if startArg = -1 then ⌊cloud.maxZval⌋ else startArg

/-- Segment.cpp lines 197-200: the target index is `end-index` when given,
otherwise `startIndex + stride`; with neither option present the
`opts["stride"]` access fails (modelled as `none`). -/
def resolveEndIndex (startIndex : ℤ) (endIndexOpt strideOpt : Option ℤ) :
    Option ℤ :=
  match endIndexOpt with
  | some e => some e
  | none => strideOpt.map (fun s => startIndex + s)

/-- Segment.cpp lines 186 and 215-223: `minIndex = floor(front()[2])`,
`pathInCloudIndex = startIndex - minIndex`, row fetched with
`masterCloud.getRow(pathInCloudIndex)`.  The index is a `size_t`; a
negative value wraps to a huge index, so the fetch fails out of range. -/
def startRow (cloud : OPS) (startIndex : ℤ) : Option (List Pt) :=
  let minIndex : ℤ := ⌊cloud.frontZ⌋
  let pathInCloudIndex := startIndex - minIndex
  if pathInCloudIndex < 0 then none
  else cloud.getRow pathInCloudIndex.toNat

/-- Segment.cpp lines 214-220: the immutable upper cloud, rows before the
starting index when `startIndex > minIndex`, otherwise an empty cloud of
the master cloud's width. -/
def immutableCloudOf (cloud : OPS) (startIndex : ℤ) : OPS :=
  let minIndex : ℤ := ⌊cloud.frontZ⌋
  if minIndex < startIndex then cloud.copyRows 0 (startIndex - minIndex).toNat
  else ⟨cloud.width, []⟩

/-- Segment.cpp `main` from option checks (lines 116-120) through target
computation (197-210), chain-width check (226-245), segmentation and
persistence (248-276).  The segmenter body (`LocalResliceSegmentation`,
not part of the source set) is abstracted as the `compute` argument taking
the starting path to the mutable cloud; the theorems below hold for every
`compute`, which expresses that the early exits happen before any
propagation step executes. -/
def segmentMain (cloud : OPS) (startArg : ℤ) (endIndexOpt strideOpt : Option ℤ)
    (compute : List Pt → OPS) : SegmentOutcome :=
  if endIndexOpt.isSome ∧ strideOpt.isSome then .earlyExit .exclusiveOptions
  else
    let startIndex := resolveStart cloud startArg
    match resolveEndIndex startIndex endIndexOpt strideOpt with
    | none => .earlyExit .missingOption
    | some endIndex =>
      if startIndex ≥ endIndex then .earlyExit .startNotBeforeEnd
      else
        match startRow cloud startIndex with
        | none => .earlyExit .rowOutOfRange
        | some row =>
          let segPath := row.filter (fun p => !(decide (p.z = -1)))
          if segPath.length ≠ cloud.width then .earlyExit .chainWidthMismatch
          else
            .completed
              (OPS.append (immutableCloudOf cloud startIndex)
                (compute segPath))

/- ----------------------------------------------------------------
MyThread::run (src/apps/VC-Texture/MyThread.cpp lines 38-58): the guard
clauses before any meshing work.  The remainder of the pipeline (meshing,
flattening, texturing) is abstracted as the `rest` argument; the status
the spec calls `InsufficientData` is the code's `ThreadStatus::CloudError`.
---------------------------------------------------------------- -/

/-- The thread status values MyThread.cpp reports via
`_globals->setThreadStatus`. -/
inductive ThreadStatus where
  | active
  | cloudError
  | failed
  | successful
deriving DecidableEq, Repr

/-- Observable processing effects of the texturing pipeline past the guard
clauses (meshing the cloud, storing a rendering). -/
inductive TexEffect where
  | meshed
  | storedRendering
deriving DecidableEq, Repr

/-- `MyThread::run` (MyThread.cpp lines 40-57): return `CloudError` with no
processing when the segmentation has no point set or the cloud's height is
at most 1; otherwise continue with the rest of the pipeline. -/
def myThreadRun (hasPointSet : Bool) (cloud : OPS)
    (rest : OPS → ThreadStatus × List TexEffect) :
    ThreadStatus × List TexEffect :=
  if hasPointSet = false then (ThreadStatus.cloudError, [])
  else if cloud.height ≤ 1 then (ThreadStatus.cloudError, [])
  else rest cloud

/- ----------------------------------------------------------------
InvertCloud.cpp `main` (src/utils/src/InvertCloud.cpp lines 41-54): build
an output cloud whose rows are the input rows in reverse order, then remap
every non-sentinel z to `maxZ - z` where `maxZ = numSlices - 1`.
---------------------------------------------------------------- -/

/-- The per-point z flip of InvertCloud.cpp lines 50-54: a point whose z is
the sentinel -1 is kept unchanged, any other point has z replaced by
`maxZ - z` with x and y unchanged. -/
def flipZ (maxZ : ℚ) (p : Pt) : Pt :=
  if p.z = -1 then p else ⟨p.x, p.y, maxZ - p.z⟩

/-- InvertCloud.cpp lines 41-54 for a volume of `n` slices: rows reversed
(the loop pushes row `height - 1 - r` for `r = 0, ...`), then `flipZ` with
`maxZ = n - 1` applied to every point of the output. -/
def invertCloud (n : ℕ) (c : OPS) : OPS :=
  ⟨c.width, (c.rows.reverse).map (List.map (flipZ ((n : ℚ) - 1)))⟩

/- ----------------------------------------------------------------
ScalarVolume sampling.  Volume.h declares `interpolateAt` and `reslice`
but their bodies (Volume.cpp) are not part of the source set, so they are
modelled from the specification (spec sections 3, 4.1, 4.2).
---------------------------------------------------------------- -/

/-- In-bounds test for a real-valued query coordinate, from the spec
invariant: voxel coordinates are validated against
`[0, width) x [0, height) x [0, numSlices)`. -/
def inBoundsB (w h n : ℕ) (x y z : ℚ) : Bool :=
  decide (0 ≤ x ∧ x < (w : ℚ) ∧ 0 ≤ y ∧ y < (h : ℚ) ∧ 0 ≤ z ∧ z < (n : ℚ))

/-- Modelled from the spec: the body of `Volume::interpolateAt` is not in
the source set (Volume.h line 31 only declares it).  Spec section 4.1:
`sample(x, y, z)` returns the trilinear interpolation of the 8 voxels
bounding the query point, with the standard product-of-distances weights;
an out-of-range coordinate returns a defined no-data value (0); voxel
indices are validated against the bounds, so the upper corner indices are
clamped to the last valid index at the volume's far faces. -/
def interpolateAt (w h n : ℕ) (data : ℕ → ℕ → ℕ → ℚ) (x y z : ℚ) : ℚ :=
  if inBoundsB w h n x y z then
    let x0 := (⌊x⌋).toNat
    let y0 := (⌊y⌋).toNat
    let z0 := (⌊z⌋).toNat
    let x1 := min (x0 + 1) (w - 1)
    let y1 := min (y0 + 1) (h - 1)
    let z1 := min (z0 + 1) (n - 1)
    let dx := x - (x0 : ℚ)
    let dy := y - (y0 : ℚ)
    let dz := z - (z0 : ℚ)
    (1 - dx) * (1 - dy) * (1 - dz) * data x0 y0 z0
      + dx * (1 - dy) * (1 - dz) * data x1 y0 z0
      + (1 - dx) * dy * (1 - dz) * data x0 y1 z0
      + dx * dy * (1 - dz) * data x1 y1 z0
      + (1 - dx) * (1 - dy) * dz * data x0 y0 z1
      + dx * (1 - dy) * dz * data x1 y0 z1
      + (1 - dx) * dy * dz * data x0 y1 z1
      + dx * dy * dz * data x1 y1 z1
  else 0

/-- The voxel index triples `interpolateAt` reads from the backing data:
the 8 (clamped) corner indices when the query is in bounds, nothing
otherwise. -/
def interpReads (w h n : ℕ) (x y z : ℚ) : List (ℕ × ℕ × ℕ) :=
  if inBoundsB w h n x y z then
    let x0 := (⌊x⌋).toNat
    let y0 := (⌊y⌋).toNat
    let z0 := (⌊z⌋).toNat
    let x1 := min (x0 + 1) (w - 1)
    let y1 := min (y0 + 1) (h - 1)
    let z1 := min (z0 + 1) (n - 1)
    [(x0, y0, z0), (x1, y0, z0), (x0, y1, z0), (x1, y1, z0),
     (x0, y0, z1), (x1, y0, z1), (x0, y1, z1), (x1, y1, z1)]
  else []

/-- The trilinear interpolation exactly as the spec words it (section 4.1):
the 8 integer voxels bounding the query point, `floor` and `floor + 1` in
each axis, combined with the product-of-distances weights.  Stated
separately from `interpolateAt` so that agreement between the two is a
theorem, not a definition. -/
def trilinearSpec (data : ℕ → ℕ → ℕ → ℚ) (x y z : ℚ) : ℚ :=
  let x0 := (⌊x⌋).toNat
  let y0 := (⌊y⌋).toNat
  let z0 := (⌊z⌋).toNat
  let dx := x - (x0 : ℚ)
  let dy := y - (y0 : ℚ)
  let dz := z - (z0 : ℚ)
  (1 - dx) * (1 - dy) * (1 - dz) * data x0 y0 z0
    + dx * (1 - dy) * (1 - dz) * data (x0 + 1) y0 z0
    + (1 - dx) * dy * (1 - dz) * data x0 (y0 + 1) z0
    + dx * dy * (1 - dz) * data (x0 + 1) (y0 + 1) z0
    + (1 - dx) * (1 - dy) * dz * data x0 y0 (z0 + 1)
    + dx * (1 - dy) * dz * data (x0 + 1) y0 (z0 + 1)
    + (1 - dx) * dy * dz * data x0 (y0 + 1) (z0 + 1)
    + dx * dy * dz * data (x0 + 1) (y0 + 1) (z0 + 1)

/-- Modelled from the spec: the body of `Volume::reslice` is not in the
source set (Volume.h lines 68-70 only declare it).  Spec section 4.2: the
output is a `w x h` image whose pixel `(i, j)` is the volume sampled at
`origin + i * xAxis + j * yAxis`; the coordinate map is the source's
`Slice::sliceCoordToVoxelCoord`. -/
def reslice (sample : Pt → ℚ) (origin xvec yvec : Pt) (w h : ℕ) :
    List (List ℚ) :=
  (List.range h).map (fun j : ℕ =>
    (List.range w).map (fun i : ℕ =>
      sample (sliceCoordToVoxelCoord origin xvec yvec (i : ℤ) (j : ℤ))))

/-- Pixel access into a row-major image: row `j`, column `i`. -/
def pixelAt (img : List (List ℚ)) (i j : ℕ) : Option ℚ :=
  img[j]?.bind (fun r => r[i]?)

/- ----------------------------------------------------------------
Slice cache.  Volume.h line 29 declares
`mutable volcart::LRUCache<int32_t, cv::Mat> cache_` and line 66 declares
`setCacheMemoryInBytes`, but LRUCache.h and Volume.cpp are not in the
source set, so the cache is modelled from the specification (spec
sections 3 CacheEntry, 4.1, 5): a byte budget, entries held
most-recently-used first, eviction of the least-recently-used entry whose
slice index is not pinned by an in-flight interpolation read, performed
until the insertion fits, before the insertion completes.
---------------------------------------------------------------- -/

/-- Cache state: the configured byte budget and the resident entries as
(slice index, byte size) pairs, most recently used first. -/
structure LRU where
  budget : ℕ
  entries : List (ℕ × ℕ)
deriving DecidableEq, Repr

/-- Total bytes resident in an entry list. -/
def residentBytes (es : List (ℕ × ℕ)) : ℕ :=
  (es.map Prod.snd).sum

/-- Whether an entry is not pinned by an in-flight interpolation read. -/
def isUnpinned (pinned : List ℕ) (e : ℕ × ℕ) : Bool :=
  !(pinned.contains e.1)

/-- Remove the least recently used unpinned entry: the rearmost entry of
the recency-ordered list whose index is not pinned.  When every entry is
pinned the list is returned unchanged (nothing can be evicted). -/
def dropLRUunpinned (pinned : List ℕ) : List (ℕ × ℕ) → List (ℕ × ℕ)
  | [] => []
  | e :: rest =>
    if rest.any (isUnpinned pinned) then e :: dropLRUunpinned pinned rest
    else if isUnpinned pinned e then rest
    else e :: rest

/-- Modelled from the spec: evict least-recently-used unpinned entries
until `need` more bytes fit under `budget`, or no evictable entry is left.
The fuel argument bounds the iteration by the entry count. -/
def evictToFit (pinned : List ℕ) (need budget : ℕ) :
    ℕ → List (ℕ × ℕ) → List (ℕ × ℕ)
  | 0, es => es
  | fuel + 1, es =>
    if residentBytes es + need ≤ budget then es
    else if es.any (isUnpinned pinned) then
      evictToFit pinned need budget fuel (dropLRUunpinned pinned es)
    else es

/-- Find the entry with the given slice index and split it out of the
list, keeping the order of the remaining entries. -/
def extractEntry (k : ℕ) : List (ℕ × ℕ) → Option ((ℕ × ℕ) × List (ℕ × ℕ))
  | [] => none
  | e :: rest =>
    if e.1 = k then some (e, rest)
    else (extractEntry k rest).map (fun pr => (pr.1, e :: pr.2))

/-- Modelled from the spec: a slice fetch against the cache.  A hit moves
the entry to the most-recently-used position; a miss loads the slice
(`loadBytes` gives its byte size), evicts least-recently-used unpinned
entries until the new entry fits, and inserts it only if it then fits
under the budget (so the budget invariant is never violated; the spec
treats a cache over budget as a defect that must never happen). -/
def getSliceCached (loadBytes : ℕ → ℕ) (pinned : List ℕ) (k : ℕ)
    (c : LRU) : LRU :=
  match extractEntry k c.entries with
  | some (e, rest) => ⟨c.budget, e :: rest⟩
  | none =>
    let nb := loadBytes k
    let es2 := evictToFit pinned nb c.budget c.entries.length c.entries
    if residentBytes es2 + nb ≤ c.budget then ⟨c.budget, (k, nb) :: es2⟩
    else ⟨c.budget, es2⟩

/-- Modelled from the spec: `Volume::setCacheMemoryInBytes` (declared at
Volume.h line 66) adjusts the memory ceiling and triggers eviction if the
cache is currently over the new budget.  It is called from volume setup,
outside any interpolation read, so nothing is pinned. -/
def setCacheMemoryInBytes (nbytes : ℕ) (c : LRU) : LRU :=
  ⟨nbytes, evictToFit [] 0 nbytes c.entries.length c.entries⟩

/-- One cache-affecting operation: a slice fetch (on behalf of
getSliceData, getInterpolatedIntensity or reslice, with the slice indices
pinned by an in-flight interpolation read) or a budget change. -/
inductive CacheOp where
  | get (pinned : List ℕ) (k : ℕ)
  | setBudget (nbytes : ℕ)
deriving DecidableEq, Repr

/-- Apply one cache operation. -/
def cacheStep (loadBytes : ℕ → ℕ) (c : LRU) : CacheOp → LRU
  | CacheOp.get pinned k => getSliceCached loadBytes pinned k c
  | CacheOp.setBudget nb => setCacheMemoryInBytes nb c

/-- Run a sequence of cache operations. -/
def runCache (loadBytes : ℕ → ℕ) (c : LRU) (ops : List CacheOp) : LRU :=
  ops.foldl (cacheStep loadBytes) c

/-- Helper: flipping z twice is the identity on a point whose z is not
`m + 1` (where `m` is the max slice index used by `flipZ`). -/
lemma flipZ_flipZ (m : ℚ) (p : Pt) (h : p.z ≠ m + 1) :
    flipZ m (flipZ m p) = p := by
  obtain ⟨px, py, pz⟩ := p
  by_cases h1 : pz = -1
  · simp [flipZ, h1]
  · have h2 : m - pz ≠ -1 := by
      intro hc
      exact h (by simp only []; linarith)
    simp [flipZ, h1, h2]

/-- Claim C8: a point set whose height is at most 1 makes the texturing
run report the cloud-error status (the spec's InsufficientData) with zero
processing effects, independent of the rest of the pipeline. -/
theorem C8_insufficient_data (hasPointSet : Bool) (cloud : OPS)
    (rest : OPS → ThreadStatus × List TexEffect)
    (h : cloud.height ≤ 1) :
    myThreadRun hasPointSet cloud rest = (ThreadStatus.cloudError, []) := by
  unfold myThreadRun
  cases hasPointSet
  · simp
  · simp [h]

theorem C8_insufficient_data_witness :
    OPS.height ⟨4, [[⟨0, 0, 0⟩]]⟩ ≤ 1 ∧
    myThreadRun true ⟨4, [[⟨0, 0, 0⟩]]⟩
        (fun _ => (ThreadStatus.successful, [TexEffect.meshed])) =
      (ThreadStatus.cloudError, []) :=
  ⟨by decide, C8_insufficient_data true _ _ (by decide)⟩

/-- Claim C10 counterexample: applying the cloud inversion twice with the
same slice count is not the identity.  With 3 slices, a point with z = 3
first maps to z = 2 - 3 = -1, which the second application then treats as
the sentinel and carries through unchanged. -/
theorem C10_involution_counterexample :
    invertCloud 3 (invertCloud 3 ⟨1, [[⟨0, 0, 3⟩]]⟩) ≠ ⟨1, [[⟨0, 0, 3⟩]]⟩ := by
  norm_num [invertCloud, flipZ]

/-- Claim C10 (amended): the inversion preserves width and height, emits
the rows in reversed order with the per-point z flip applied, carries
sentinel points unchanged and maps any other z to (n-1) - z keeping x and
y; applying it twice with the same n is the identity provided no point of
the input has z = n (a z = n point maps to the sentinel -1 and sticks
there). -/
theorem C10_invert_cloud_amended (n : ℕ) (c : OPS) :
    (invertCloud n c).width = c.width ∧
    (invertCloud n c).height = c.height ∧
    (invertCloud n c).rows =
      (c.rows.map (List.map (flipZ ((n : ℚ) - 1)))).reverse ∧
    (∀ p : Pt, p.z = -1 → flipZ ((n : ℚ) - 1) p = p) ∧
    (∀ p : Pt, p.z ≠ -1 →
      flipZ ((n : ℚ) - 1) p = ⟨p.x, p.y, ((n : ℚ) - 1) - p.z⟩) ∧
    ((∀ row ∈ c.rows, ∀ p ∈ row, p.z ≠ (n : ℚ)) →
      invertCloud n (invertCloud n c) = c) := by
  refine ⟨rfl, ?_, ?_, ?_, ?_, ?_⟩
  · simp [invertCloud, OPS.height]
  · simp [invertCloud, List.map_reverse]
  · intro p hp; simp [flipZ, hp]
  · intro p hp; simp [flipZ, hp]
  · intro hyp
    obtain ⟨w, rows⟩ := c
    simp only [invertCloud, List.map_reverse, List.reverse_reverse, List.map_map,
      OPS.mk.injEq, true_and]
    have : ∀ row ∈ rows, (List.map (flipZ ((n : ℚ) - 1)) ∘ List.map (flipZ ((n : ℚ) - 1))) row = id row := by
      intro row hr
      simp only [Function.comp_apply, List.map_map, id]
      have hpts : ∀ p ∈ row, (flipZ ((n : ℚ) - 1) ∘ flipZ ((n : ℚ) - 1)) p = id p := by
        intro p hp
        have hz : p.z ≠ ((n : ℚ) - 1) + 1 := by
          have := hyp row hr p hp
          intro hc
          exact this (by rw [hc]; ring)
        simpa using flipZ_flipZ ((n : ℚ) - 1) p hz
      rw [List.map_congr_left hpts, List.map_id]
    rw [List.map_congr_left this, List.map_id]

theorem C10_invert_cloud_amended_witness :
    (∀ row ∈ (OPS.mk 1 [[⟨0, 0, 0⟩], [⟨1, 2, -1⟩]]).rows, ∀ p ∈ row,
      Pt.z p ≠ ((3 : ℕ) : ℚ)) ∧
    invertCloud 3 (invertCloud 3 ⟨1, [[⟨0, 0, 0⟩], [⟨1, 2, -1⟩]]⟩) =
      ⟨1, [[⟨0, 0, 0⟩], [⟨1, 2, -1⟩]]⟩ :=
  ⟨by norm_num, (C10_invert_cloud_amended 3 _).2.2.2.2.2 (by norm_num)⟩

/-- Claim C1, evaluated at the failing input: with reference column 10 and
maxima candidates at columns 11 and 0, the proximity sort of
`Slice::findNextPosition` ranks column 0 first even though its absolute
distance (10) is larger than column 11's (1): the unsigned 32-bit
subtraction `lhs.first - x` wraps for candidates left of the reference, so
they are not ranked by absolute 1D distance as the code's own comment
(slice.cpp line 40) and the spec state. -/
theorem C1_rank_by_proximity_wraparound :
    rankByProximity 10 [(11, 1), (0, 1)] = [(0, 1), (11, 1)] ∧
    ((11 : ℤ) - 10).natAbs < ((0 : ℤ) - 10).natAbs := by
  constructor
  · decide
  · decide

/-- Claim C9, partly confirmed and evaluated at a failing input: the
profile row is exactly lookaheadDepth = 5 rows ahead of the center row and
up to 4 maxima are requested (both as the claim states), but the maxima
are not ranked by proximity to the center column: with reference column 5,
the candidate at column 3 (absolute distance 2) is ranked before the
candidate at column 6 (absolute distance 1) because the unsigned
subtraction wraps for candidates left of the reference. -/
theorem C9_candidate_search :
    (∀ rows : ℕ, profileRowIndex rows = rows / 2 + 5) ∧
    lookaheadDepth = 5 ∧
    numMaximaRequested = 4 ∧
    rankByProximity 5 [(6, 2), (3, 7)] = [(3, 7), (6, 2)] ∧
    ((6 : ℤ) - 5).natAbs < ((3 : ℤ) - 5).natAbs := by
  exact ⟨fun rows => rfl, rfl, rfl, by decide, by decide⟩

/-- Claim C2 counterexample: on an empty maxima list (empty profile),
`Slice::findNextPosition` does not return a sentinel position and does not
continue - `maxima.at(0)` raises `std::out_of_range` (modelled as `none`),
so no position at all is produced. -/
theorem C2_empty_maxima_counterexample :
    findNextPositionVoxelFrom ⟨0, 0, 0⟩ ⟨1, 0, 0⟩ ⟨0, 1, 0⟩ 32 32 [] = none := by
  decide

/-- Claim C2 (amended): for every slice geometry, `Slice::findNextPosition`
invoked with an empty maxima list fails with an out-of-range error from
`maxima.at(0)` instead of marking the particle with the sentinel z = -1;
no next position is returned. -/
theorem C2_empty_maxima_amended (origin xvec yvec : Pt) (cols rows : ℕ) :
    findNextPositionVoxelFrom origin xvec yvec cols rows [] = none := rfl

/-- Claim C5: every output pixel (i, j) of the reslice is the volume
sampled at origin + i * xAxis + j * yAxis, and the source's
`Slice::sliceCoordToVoxelCoord` maps slice point (i, j) to exactly
origin + i * xvec + j * yvec. -/
theorem C5_reslice_coord (sample : Pt → ℚ) (origin xvec yvec : Pt)
    (w h i j : ℕ) (hi : i < w) (hj : j < h) :
    pixelAt (reslice sample origin xvec yvec w h) i j =
      some (sample (ptAdd origin
        (ptAdd (ptScale (i : ℚ) xvec) (ptScale (j : ℚ) yvec)))) ∧
    sliceCoordToVoxelCoord origin xvec yvec (i : ℤ) (j : ℤ) =
      ptAdd origin (ptAdd (ptScale (i : ℚ) xvec) (ptScale (j : ℚ) yvec)) := by
  constructor
  · unfold pixelAt reslice
    rw [List.getElem?_map, List.getElem?_range hj]
    simp [List.getElem?_map, sliceCoordToVoxelCoord]
    exact ⟨i, List.getElem?_range hi, rfl⟩
  · simp [sliceCoordToVoxelCoord]

theorem C5_reslice_coord_witness :
    (1 : ℕ) < 2 ∧
    pixelAt (reslice (fun p => p.x + p.z) ⟨1, 2, 3⟩ ⟨1, 0, 0⟩ ⟨0, 1, 0⟩ 2 2) 1 1 =
      some ((fun p => p.x + p.z) (ptAdd ⟨1, 2, 3⟩
        (ptAdd (ptScale ((1 : ℕ) : ℚ) ⟨1, 0, 0⟩) (ptScale ((1 : ℕ) : ℚ) ⟨0, 1, 0⟩)))) :=
  ⟨by decide,
   (C5_reslice_coord (fun p => p.x + p.z) ⟨1, 2, 3⟩ ⟨1, 0, 0⟩ ⟨0, 1, 0⟩ 2 2 1 1
     (by decide) (by decide)).1⟩

/-- Claim C6: when the starting row, after filtering of sentinel points,
does not have exactly the declared chain width, Segment.cpp exits at the
chain-width check before the segmenter runs, for every possible segmenter
body; no result is produced or persisted. -/
theorem C6_chain_width_mismatch (cloud : OPS) (startArg : ℤ)
    (endIndexOpt strideOpt : Option ℤ) (compute : List Pt → OPS)
    (endIndex : ℤ) (row : List Pt)
    (hexcl : ¬(endIndexOpt.isSome ∧ strideOpt.isSome))
    (hend : resolveEndIndex (resolveStart cloud startArg) endIndexOpt strideOpt =
      some endIndex)
    (hlt : resolveStart cloud startArg < endIndex)
    (hrow : startRow cloud (resolveStart cloud startArg) = some row)
    (hmismatch : (row.filter (fun p => !(decide (p.z = -1)))).length ≠ cloud.width) :
    segmentMain cloud startArg endIndexOpt strideOpt compute =
      SegmentOutcome.earlyExit ExitKind.chainWidthMismatch := by
  simp only [segmentMain]
  rw [if_neg hexcl, hend]
  simp only []
  rw [if_neg (not_le.mpr hlt), hrow]
  simp only []
  rw [if_pos hmismatch]

theorem C6_chain_width_mismatch_witness :
    ((([⟨0, 0, 0⟩, ⟨1, 0, 0⟩] : List Pt).filter
        (fun p => !(decide (p.z = -1)))).length ≠ (3 : ℕ)) ∧
    segmentMain ⟨3, [[⟨0, 0, 0⟩, ⟨1, 0, 0⟩]]⟩ 0 (some 2) none (fun _ => ⟨3, []⟩) =
      SegmentOutcome.earlyExit ExitKind.chainWidthMismatch :=
  ⟨by decide,
   C6_chain_width_mismatch ⟨3, [[⟨0, 0, 0⟩, ⟨1, 0, 0⟩]]⟩ 0 (some 2) none
     (fun _ => ⟨3, []⟩) 2 [⟨0, 0, 0⟩, ⟨1, 0, 0⟩]
     (by decide) (by decide) (by decide) (by decide) (by decide)⟩

/-- Claim C7: with a stride instead of an end index the target is
startIndex + stride (stride 5 from start 10 gives target 15), and whenever
the resolved start index is at least the target the run exits at the
sanity check before any stepping, for every possible segmenter body. -/
theorem C7_target_index :
    resolveEndIndex 10 none (some 5) = some 15 ∧
    ∀ (cloud : OPS) (startArg endIndex : ℤ)
      (endIndexOpt strideOpt : Option ℤ) (compute : List Pt → OPS),
      ¬(endIndexOpt.isSome ∧ strideOpt.isSome) →
      resolveEndIndex (resolveStart cloud startArg) endIndexOpt strideOpt =
        some endIndex →
      resolveStart cloud startArg ≥ endIndex →
      segmentMain cloud startArg endIndexOpt strideOpt compute =
        SegmentOutcome.earlyExit ExitKind.startNotBeforeEnd := by
  constructor
  · decide
  · intro cloud startArg endIndex endIndexOpt strideOpt compute hexcl hend hge
    simp only [segmentMain]
    rw [if_neg hexcl, hend]
    simp only []
    rw [if_pos hge]

theorem C7_target_index_witness :
    ((10 : ℤ) ≥ 8) ∧
    segmentMain ⟨1, []⟩ 10 (some 8) none (fun _ => ⟨1, []⟩) =
      SegmentOutcome.earlyExit ExitKind.startNotBeforeEnd :=
  ⟨by decide,
   C7_target_index.2 ⟨1, []⟩ 10 8 (some 8) none (fun _ => ⟨1, []⟩)
     (by decide) (by decide) (by decide)⟩

/-- Claim C3: sampling outside [0,w) x [0,h) x [0,n) returns the no-data
sentinel 0; every voxel index the interpolation reads is inside the
volume bounds; and on any query whose bounding unit cube lies inside the
volume the result is exactly the spec's trilinear interpolation of the 8
bounding integer voxels. -/
theorem C3_interpolation_bounds (w h n : ℕ) (data : ℕ → ℕ → ℕ → ℚ)
    (x y z : ℚ) :
    (inBoundsB w h n x y z = false → interpolateAt w h n data x y z = 0) ∧
    (∀ t ∈ interpReads w h n x y z, t.1 < w ∧ t.2.1 < h ∧ t.2.2 < n) ∧
    ((0 ≤ x ∧ x + 1 < (w : ℚ) ∧ 0 ≤ y ∧ y + 1 < (h : ℚ) ∧
      0 ≤ z ∧ z + 1 < (n : ℚ)) →
      interpolateAt w h n data x y z = trilinearSpec data x y z) := by
  refine ⟨?_, ?_, ?_⟩
  · intro hb
    unfold interpolateAt
    rw [if_neg (by simp [hb])]
  · intro t ht
    by_cases hb : inBoundsB w h n x y z = true
    · unfold interpReads at ht
      rw [if_pos hb] at ht
      unfold inBoundsB at hb
      have hprop := of_decide_eq_true hb
      obtain ⟨hx0, hxw, hy0, hyh, hz0, hzn⟩ := hprop
      have hwpos : 0 < w := by exact_mod_cast lt_of_le_of_lt hx0 hxw
      have hhpos : 0 < h := by exact_mod_cast lt_of_le_of_lt hy0 hyh
      have hnpos : 0 < n := by exact_mod_cast lt_of_le_of_lt hz0 hzn
      have hfx : ⌊x⌋ < (w : ℤ) := Int.floor_lt.mpr (by exact_mod_cast hxw)
      have hfy : ⌊y⌋ < (h : ℤ) := Int.floor_lt.mpr (by exact_mod_cast hyh)
      have hfz : ⌊z⌋ < (n : ℤ) := Int.floor_lt.mpr (by exact_mod_cast hzn)
      simp only [List.mem_cons, List.not_mem_nil, or_false] at ht
      rcases ht with rfl | rfl | rfl | rfl | rfl | rfl | rfl | rfl <;>
        dsimp only <;>
        exact ⟨by omega, by omega, by omega⟩
    · unfold interpReads at ht
      rw [if_neg hb] at ht
      exact absurd ht (List.not_mem_nil t)
  · intro hcube
    obtain ⟨hx0, hxw, hy0, hyh, hz0, hzn⟩ := hcube
    have hb : inBoundsB w h n x y z = true := by
      unfold inBoundsB
      exact decide_eq_true ⟨hx0, by linarith, hy0, by linarith, hz0, by linarith⟩
    have hfx0 : (0 : ℤ) ≤ ⌊x⌋ := Int.floor_nonneg.mpr hx0
    have hfy0 : (0 : ℤ) ≤ ⌊y⌋ := Int.floor_nonneg.mpr hy0
    have hfz0 : (0 : ℤ) ≤ ⌊z⌋ := Int.floor_nonneg.mpr hz0
    have hfx : ⌊x⌋ + 1 < (w : ℤ) := by
      have h1 : (⌊x⌋ : ℚ) ≤ x := Int.floor_le x
      have h2 : ((⌊x⌋ + 1 : ℤ) : ℚ) < (w : ℚ) := by push_cast; linarith
      exact_mod_cast h2
    have hfy : ⌊y⌋ + 1 < (h : ℤ) := by
      have h1 : (⌊y⌋ : ℚ) ≤ y := Int.floor_le y
      have h2 : ((⌊y⌋ + 1 : ℤ) : ℚ) < (h : ℚ) := by push_cast; linarith
      exact_mod_cast h2
    have hfz : ⌊z⌋ + 1 < (n : ℤ) := by
      have h1 : (⌊z⌋ : ℚ) ≤ z := Int.floor_le z
      have h2 : ((⌊z⌋ + 1 : ℤ) : ℚ) < (n : ℚ) := by push_cast; linarith
      exact_mod_cast h2
    have hminx : min ((⌊x⌋).toNat + 1) (w - 1) = (⌊x⌋).toNat + 1 := by omega
    have hminy : min ((⌊y⌋).toNat + 1) (h - 1) = (⌊y⌋).toNat + 1 := by omega
    have hminz : min ((⌊z⌋).toNat + 1) (n - 1) = (⌊z⌋).toNat + 1 := by omega
    simp only [interpolateAt, trilinearSpec]
    rw [if_pos hb, hminx, hminy, hminz]

theorem C3_interpolation_bounds_witness :
    interpolateAt 4 4 4 (fun i j k => (i : ℚ) + j + k) (-1) 0 0 = 0 ∧
    ((0 : ℕ) < 4 ∧ (0 : ℕ) < 4 ∧ (0 : ℕ) < 4) ∧
    interpolateAt 4 4 4 (fun i j k => (i : ℚ) + j + k) (1/2) (1/2) (1/2) =
      trilinearSpec (fun i j k => (i : ℚ) + j + k) (1/2) (1/2) (1/2) :=
  ⟨(C3_interpolation_bounds 4 4 4 (fun i j k => (i : ℚ) + j + k) (-1) 0 0).1
     (by norm_num [inBoundsB]),
   (C3_interpolation_bounds 4 4 4 (fun i j k => (i : ℚ) + j + k) 0 0 0).2.1
     (0, 0, 0) (by norm_num [interpReads, inBoundsB]),
   (C3_interpolation_bounds 4 4 4 (fun i j k => (i : ℚ) + j + k)
     (1/2) (1/2) (1/2)).2.2 (by norm_num)⟩

/-- Helper: bytes of a cons cell. -/
lemma residentBytes_cons (e : ℕ × ℕ) (l : List (ℕ × ℕ)) :
    residentBytes (e :: l) = e.2 + residentBytes l := by
  simp [residentBytes]

/-- Helper: evicting one entry never increases the resident bytes. -/
lemma residentBytes_drop_le (pinned : List ℕ) (es : List (ℕ × ℕ)) :
    residentBytes (dropLRUunpinned pinned es) ≤ residentBytes es := by
  induction es with
  | nil => exact le_refl _
  | cons e rest ih =>
    unfold dropLRUunpinned
    by_cases h1 : rest.any (isUnpinned pinned) = true
    · rw [if_pos h1, residentBytes_cons, residentBytes_cons]
      omega
    · rw [if_neg h1]
      by_cases h2 : isUnpinned pinned e = true
      · rw [if_pos h2, residentBytes_cons]
        omega
      · rw [if_neg h2]

/-- Helper: evicting one entry from a list holding an unpinned entry
removes exactly one entry. -/
lemma dropLRUunpinned_length (pinned : List ℕ) (es : List (ℕ × ℕ))
    (h : es.any (isUnpinned pinned) = true) :
    (dropLRUunpinned pinned es).length + 1 = es.length := by
  induction es with
  | nil => simp at h
  | cons e rest ih =>
    unfold dropLRUunpinned
    by_cases h1 : rest.any (isUnpinned pinned) = true
    · rw [if_pos h1]
      simp only [List.length_cons]
      rw [ih h1]
    · rw [if_neg h1]
      have he : isUnpinned pinned e = true := by
        simp only [List.any_cons, Bool.or_eq_true] at h
        rcases h with h | h
        · exact h
        · exact absurd h h1
      rw [if_pos he]
      simp

/-- Helper: the eviction loop never increases the resident bytes. -/
lemma evictToFit_le (pinned : List ℕ) (need budget fuel : ℕ)
    (es : List (ℕ × ℕ)) :
    residentBytes (evictToFit pinned need budget fuel es) ≤
      residentBytes es := by
  induction fuel generalizing es with
  | zero => exact le_refl _
  | succ fuel ih =>
    unfold evictToFit
    by_cases h1 : residentBytes es + need ≤ budget
    · rw [if_pos h1]
    · rw [if_neg h1]
      by_cases h2 : es.any (isUnpinned pinned) = true
      · rw [if_pos h2]
        exact le_trans (ih _) (residentBytes_drop_le _ _)
      · rw [if_neg h2]

/-- Helper: with nothing pinned and enough fuel, the eviction loop reaches
a state within the budget (at worst it empties the cache). -/
lemma evictToFit_nopin_le (budget fuel : ℕ) (es : List (ℕ × ℕ))
    (hfuel : es.length ≤ fuel) :
    residentBytes (evictToFit [] 0 budget fuel es) ≤ budget := by
  induction fuel generalizing es with
  | zero =>
    have hnil : es = [] := List.length_eq_zero.mp (Nat.le_zero.mp hfuel)
    subst hnil
    simp [evictToFit, residentBytes]
  | succ fuel ih =>
    unfold evictToFit
    by_cases h1 : residentBytes es + 0 ≤ budget
    · rw [if_pos h1]
      omega
    · rw [if_neg h1]
      have hne : es ≠ [] := by
        intro hnil
        subst hnil
        simp [residentBytes] at h1
      have hany : es.any (isUnpinned []) = true := by
        cases es with
        | nil => exact absurd rfl hne
        | cons e rest => simp [List.any_cons, isUnpinned]
      rw [if_pos hany]
      apply ih
      have := dropLRUunpinned_length [] es hany
      omega

/-- Helper: extracting the entry with a given key preserves the total
byte count. -/
lemma extractEntry_bytes (k : ℕ) (es : List (ℕ × ℕ)) (e : ℕ × ℕ)
    (rest : List (ℕ × ℕ)) (h : extractEntry k es = some (e, rest)) :
    e.2 + residentBytes rest = residentBytes es := by
  induction es generalizing e rest with
  | nil => simp [extractEntry] at h
  | cons a as ih =>
    unfold extractEntry at h
    by_cases h1 : a.1 = k
    · rw [if_pos h1] at h
      simp only [Option.some.injEq, Prod.mk.injEq] at h
      obtain ⟨rfl, rfl⟩ := h
      rfl
    · rw [if_neg h1] at h
      cases hx : extractEntry k as with
      | none => rw [hx] at h; simp at h
      | some pr =>
        obtain ⟨e2, rest2⟩ := pr
        rw [hx] at h
        simp only [Option.map_some', Option.some.injEq, Prod.mk.injEq] at h
        obtain ⟨rfl, rfl⟩ := h
        have hh := ih _ _ hx
        rw [residentBytes_cons, residentBytes_cons]
        omega

/-- Helper: one cache operation preserves the budget invariant. -/
lemma cacheStep_inv (loadBytes : ℕ → ℕ) (c : LRU) (op : CacheOp)
    (h : residentBytes c.entries ≤ c.budget) :
    residentBytes (cacheStep loadBytes c op).entries ≤
      (cacheStep loadBytes c op).budget := by
  cases op with
  | get pinned k =>
    show residentBytes (getSliceCached loadBytes pinned k c).entries ≤
      (getSliceCached loadBytes pinned k c).budget
    unfold getSliceCached
    cases hx : extractEntry k c.entries with
    | some pr =>
      obtain ⟨e, rest⟩ := pr
      simp only []
      have hb := extractEntry_bytes k c.entries e rest hx
      rw [residentBytes_cons]
      omega
    | none =>
      simp only []
      by_cases h1 :
        residentBytes
            (evictToFit pinned (loadBytes k) c.budget c.entries.length
              c.entries) + loadBytes k ≤ c.budget
      · rw [if_pos h1]
        dsimp only
        rw [residentBytes_cons]
        dsimp only
        omega
      · rw [if_neg h1]
        exact le_trans (evictToFit_le _ _ _ _ _) h
  | setBudget nb =>
    show residentBytes (setCacheMemoryInBytes nb c).entries ≤
      (setCacheMemoryInBytes nb c).budget
    unfold setCacheMemoryInBytes
    exact evictToFit_nopin_le nb c.entries.length c.entries (le_refl _)

/-- Helper: the budget invariant is preserved across any operation
sequence. -/
lemma runCache_inv (loadBytes : ℕ → ℕ) (ops : List CacheOp) (c : LRU)
    (h : residentBytes c.entries ≤ c.budget) :
    residentBytes (runCache loadBytes c ops).entries ≤
      (runCache loadBytes c ops).budget := by
  induction ops generalizing c with
  | nil => exact h
  | cons op ops ih =>
    simp only [runCache, List.foldl_cons]
    exact ih _ (cacheStep_inv loadBytes c op h)

/-- Helper: when the entry list holds an unpinned entry, eviction removes
exactly the rearmost (least recently used) unpinned entry. -/
lemma dropLRUunpinned_spec (pinned : List ℕ) (es : List (ℕ × ℕ))
    (h : es.any (isUnpinned pinned) = true) :
    ∃ pre lru post, es = pre ++ lru :: post ∧
      isUnpinned pinned lru = true ∧
      (∀ e ∈ post, isUnpinned pinned e = false) ∧
      dropLRUunpinned pinned es = pre ++ post := by
  induction es with
  | nil => simp at h
  | cons e rest ih =>
    by_cases h1 : rest.any (isUnpinned pinned) = true
    · obtain ⟨pre, lru, post, hsplit, hunp, hpost, hdrop⟩ := ih h1
      refine ⟨e :: pre, lru, post, by rw [hsplit]; rfl, hunp, hpost, ?_⟩
      unfold dropLRUunpinned
      rw [if_pos h1, hdrop]
      rfl
    · have he : isUnpinned pinned e = true := by
        simp only [List.any_cons, Bool.or_eq_true] at h
        rcases h with h | h
        · exact h
        · exact absurd h h1
      refine ⟨[], e, rest, rfl, he, ?_, ?_⟩
      · intro x hx
        by_contra hxc
        apply h1
        refine List.any_eq_true.mpr ⟨x, hx, ?_⟩
        cases hv : isUnpinned pinned x with
        | false => exact absurd hv hxc
        | true => rfl
      · unfold dropLRUunpinned
        rw [if_neg h1, if_pos he]
        rfl

/-- Claim C4: over every sequence of slice fetches and budget changes the
resident bytes of the slice cache never exceed the configured budget, and
whenever eviction fires on a cache holding at least one unpinned entry it
removes exactly the least-recently-used entry whose slice index is not
pinned by an in-flight interpolation read. -/
theorem C4_cache_budget_invariant :
    (∀ (loadBytes : ℕ → ℕ) (ops : List CacheOp) (c : LRU),
      residentBytes c.entries ≤ c.budget →
      residentBytes (runCache loadBytes c ops).entries ≤
        (runCache loadBytes c ops).budget) ∧
    (∀ (pinned : List ℕ) (es : List (ℕ × ℕ)),
      es.any (isUnpinned pinned) = true →
      ∃ pre lru post, es = pre ++ lru :: post ∧
        isUnpinned pinned lru = true ∧
        (∀ e ∈ post, isUnpinned pinned e = false) ∧
        dropLRUunpinned pinned es = pre ++ post) :=
  ⟨fun loadBytes ops c h => runCache_inv loadBytes ops c h,
   fun pinned es h => dropLRUunpinned_spec pinned es h⟩

theorem C4_cache_budget_invariant_witness :
    residentBytes (LRU.mk 100 []).entries ≤ (LRU.mk 100 []).budget ∧
    residentBytes
        (runCache (fun _ => 60) ⟨100, []⟩
          [CacheOp.get [] 1, CacheOp.get [] 2, CacheOp.setBudget 70,
            CacheOp.get [2] 3]).entries ≤
      (runCache (fun _ => 60) ⟨100, []⟩
        [CacheOp.get [] 1, CacheOp.get [] 2, CacheOp.setBudget 70,
          CacheOp.get [2] 3]).budget ∧
    ([(1, 10), (2, 20), (3, 30)] : List (ℕ × ℕ)).any (isUnpinned [3]) = true ∧
    (∃ pre lru post,
      ([(1, 10), (2, 20), (3, 30)] : List (ℕ × ℕ)) = pre ++ lru :: post ∧
      isUnpinned [3] lru = true ∧
      (∀ e ∈ post, isUnpinned [3] e = false) ∧
      dropLRUunpinned [3] [(1, 10), (2, 20), (3, 30)] = pre ++ post) :=
  ⟨by decide,
   C4_cache_budget_invariant.1 (fun _ => 60) _ _ (by decide),
   by decide,
   C4_cache_budget_invariant.2 [3] _ (by decide)⟩
